import Mathlib

/-!
A shallow embedding of the to-do list task store (src/main.py, src/models.py).

The store is a pair of module-level globals: `tasks_db : Dict[int, Task]`
(a Python dict, which preserves insertion order) and `next_id : int`.
The dict is embedded as an association list `List (Nat × Task)`; dict
operations (membership, first lookup, in-place replace, deletion) are
defined below to match Python dict semantics.

Timestamps (`datetime.now()`) are modelled by `Nat` parameters supplied
with each request, one per `datetime.now()` call the handler makes:
`create_task` makes two separate calls (one for `created_at`, one for
`updated_at`) and therefore takes two readings `now1` and `now2` in call
order; `update_task` makes a single call and takes one reading.

Pydantic field semantics are modelled faithfully:
  * `TaskCreate.title : str` (required, 1..200 chars),
    `TaskCreate.description : Optional[str]` (≤ 1000 chars when a string).
  * `TaskUpdate` fields are tri-state: a field in the JSON body can be
    absent (outer `none`), present-and-null (`some none`), or
    present-with-a-value (`some (some v)`).  `Optional[...]` pydantic
    fields accept `null`, and the length constraints only apply to
    string values, so `{"title": null}` passes request validation.
  * `task_data.model_dump(exclude_unset=True)` keeps fields that were
    explicitly set, including fields explicitly set to `null`; the
    handler then `setattr`s each of them on the stored task object.
    `Task` does not enable `validate_assignment`, so these assignments
    are not re-checked.  Consequently a stored task's `title` and
    `completed` can dynamically become `None`; the stored-task type
    therefore wraps every mutable field in `Option`.
-/

namespace TodoApi

/-- A task object as stored in `tasks_db`.  Mutable fields are `Option`s
because `setattr` during update can assign `None` to them (see header). -/
structure Task where
  id : Nat
  title : Option String
  description : Option String
  completed : Option Bool
  created_at : Nat
  updated_at : Nat
deriving Repr, DecidableEq

/-- Predicate stating that a stored task matches the declared `Task`
pydantic model: `title` a string of 1..200 chars, `description` absent or
≤ 1000 chars, `completed` an actual boolean. -/
def Task.wellFormed (t : Task) : Prop :=
  (∃ s, t.title = some s ∧ 1 ≤ s.length ∧ s.length ≤ 200) ∧
  (∀ d, t.description = some d → d.length ≤ 1000) ∧
  (∃ b, t.completed = some b)

instance (t : Task) : Decidable t.wellFormed := by
  unfold Task.wellFormed
  cases t.title <;> cases t.completed <;> exact inferInstance

/-- Request body of `POST /tasks` after JSON parsing (`TaskCreate`):
`title` is a required string, `description` optional/nullable. -/
structure TaskCreate where
  title : String
  description : Option String
deriving Repr, DecidableEq

/-- Pydantic validation of `TaskCreate`: `title` has
`min_length=1, max_length=200`; `description` has `max_length=1000` and
may be `null`/absent. -/
def validCreate (c : TaskCreate) : Bool :=
  1 ≤ c.title.length && c.title.length ≤ 200 &&
    (match c.description with
     | none => true
     | some d => d.length ≤ 1000)

/-- Request body of `PUT /tasks/{id}` (`TaskUpdate`).  Outer `none` means
the field is absent from the JSON body (unset); `some v` means the field
was supplied with value `v`, where `v = none` is an explicit JSON `null`. -/
structure TaskUpdate where
  title : Option (Option String) := none
  description : Option (Option String) := none
  completed : Option (Option Bool) := none
deriving Repr, DecidableEq

/-- Pydantic validation of `TaskUpdate`: the length constraints apply to
supplied string values; absent fields and explicit `null`s pass. -/
def validUpdate (u : TaskUpdate) : Bool :=
  (match u.title with
   | some (some t) => 1 ≤ t.length && t.length ≤ 200
   | _ => true) &&
  (match u.description with
   | some (some d) => d.length ≤ 1000
   | _ => true)

/-- Domain errors surfaced through the HTTP layer: `HTTPException(404, detail)`
and FastAPI's 422 request-validation failure. -/
inductive ApiError where
  | notFound (detail : String)
  | validationError
deriving Repr, DecidableEq

/-- The module-level state of `main.py`: `tasks_db` and `next_id`. -/
structure StoreState where
  tasks_db : List (Nat × Task)
  next_id : Nat
deriving Repr, DecidableEq

/-- Initial module state: empty dict, counter seeded at 1. -/
def initialState : StoreState := ⟨[], 1⟩

/-- `task_id in tasks_db`. -/
def hasKey (db : List (Nat × Task)) (k : Nat) : Bool :=
  db.any (fun p => p.1 == k)

/-- `tasks_db[k]` as a partial lookup (first entry with key `k`). -/
def dictGet? (db : List (Nat × Task)) (k : Nat) : Option Task :=
  (db.find? (fun p => p.1 == k)).map (fun p => p.2)

/-- `tasks_db[k] = v`: replaces in place when the key exists (keeping its
position, as Python dicts do), otherwise appends at the end. -/
def dictSet (db : List (Nat × Task)) (k : Nat) (v : Task) : List (Nat × Task) :=
  if hasKey db k then db.map (fun p => if p.1 == k then (k, v) else p)
  else db ++ [(k, v)]

/-- `del tasks_db[k]`: removes the entry with key `k`. -/
def dictDel (db : List (Nat × Task)) (k : Nat) : List (Nat × Task) :=
  db.eraseP (fun p => p.1 == k)

/-- `GET /tasks` (`get_tasks`): returns all values, or the values whose
`completed` equals the query parameter when one was given.  Python's
`task.completed == completed` compares a possibly-`None` attribute with
the boolean filter, which is exactly `t.completed == some c`. -/
def get_tasks (s : StoreState) (completed : Option Bool) : List Task :=
  match completed with
  | none => s.tasks_db.map (fun p => p.2)
  | some c => (s.tasks_db.map (fun p => p.2)).filter (fun t => t.completed == some c)

/-- `GET /tasks/{task_id}` (`get_task`): 404 with a detail message naming
the id when absent, otherwise the stored task.  Reads don't change state. -/
def get_task (s : StoreState) (task_id : Nat) : Except ApiError Task :=
  if hasKey s.tasks_db task_id then
    match dictGet? s.tasks_db task_id with
    | some t => .ok t
    | none => .error (.notFound ("Error: Task with the id " ++ toString task_id ++ " not found"))
  else
    .error (.notFound ("Error: Task with the id " ++ toString task_id ++ " not found"))

/-- `POST /tasks` (`create_task`): FastAPI validates the body first (422 on
failure, before the handler runs); the handler builds the new task with
`id = next_id`, `completed = False`, `created_at` from the first
`datetime.now()` call and `updated_at` from the second, stores it under
`next_id` and increments `next_id`. -/
def new_task (s : StoreState) (body : TaskCreate) (now1 now2 : Nat) : Task :=
  { id := s.next_id
    title := some body.title
    description := body.description
    completed := some false
    created_at := now1
    updated_at := now2 }

def create_task (s : StoreState) (body : TaskCreate) (now1 now2 : Nat) :
    Except ApiError Task × StoreState :=
  if validCreate body then
    (.ok (new_task s body now1 now2),
     { tasks_db := dictSet s.tasks_db s.next_id (new_task s body now1 now2),
       next_id := s.next_id + 1 })
  else
    (.error .validationError, s)

/-- The `setattr` loop over `task_data.model_dump(exclude_unset=True)`
followed by `task.updated_at = datetime.now()`: every supplied field is
assigned (explicit `null`s included), unset fields are untouched. -/
def applyPatch (t : Task) (u : TaskUpdate) (now : Nat) : Task :=
  { t with
    title := match u.title with | none => t.title | some v => v
    description := match u.description with | none => t.description | some v => v
    completed := match u.completed with | none => t.completed | some v => v
    updated_at := now }

/-- `PUT /tasks/{task_id}` (`update_task`): body validation happens first
(FastAPI, 422), then the 404 check, then the in-place mutation of the
stored object (which the dict entry aliases). -/
def update_task (s : StoreState) (task_id : Nat) (body : TaskUpdate) (now : Nat) :
    Except ApiError Task × StoreState :=
  if validUpdate body then
    match dictGet? s.tasks_db task_id with
    | none =>
        (.error (.notFound ("Task with the id " ++ toString task_id ++ " not found")), s)
    | some task =>
        let task' := applyPatch task body now
        (.ok task',
         { s with tasks_db :=
             s.tasks_db.map (fun p => if p.1 == task_id then (task_id, task') else p) })
  else
    (.error .validationError, s)

/-- `DELETE /tasks/{task_id}` (`delete_task`): 404 when absent, else the
entry is removed; `next_id` is untouched. -/
def delete_task (s : StoreState) (task_id : Nat) :
    Except ApiError Unit × StoreState :=
  if hasKey s.tasks_db task_id then
    (.ok (), { s with tasks_db := dictDel s.tasks_db task_id })
  else
    (.error (.notFound ("Task with the id " ++ toString task_id ++ " not found")), s)

/-- One incoming HTTP request, with the reading(s) the mutating handler's
`datetime.now()` calls return (two for create, in call order). -/
inductive Request where
  | listReq (completed : Option Bool)
  | getReq (task_id : Nat)
  | createReq (body : TaskCreate) (now1 now2 : Nat)
  | updateReq (task_id : Nat) (body : TaskUpdate) (now : Nat)
  | deleteReq (task_id : Nat)
deriving Repr, DecidableEq

/-- The state transition performed by one request (reads leave the state
unchanged; failed requests leave it unchanged too, by the handlers above). -/
def step (s : StoreState) : Request → StoreState
  | .listReq _ => s
  | .getReq _ => s
  | .createReq body now1 now2 => (create_task s body now1 now2).2
  | .updateReq task_id body now => (update_task s task_id body now).2
  | .deleteReq task_id => (delete_task s task_id).2

/-- Run a sequence of requests from a state. -/
def run (s : StoreState) (reqs : List Request) : StoreState :=
  reqs.foldl step s

/-- A state reachable from the freshly imported module by some request
sequence. -/
def Reachable (s : StoreState) : Prop :=
  ∃ reqs, run initialState reqs = s

/-- The ids assigned by the successful `create_task` calls of a request
sequence, in order of occurrence. -/
def createdIds (s : StoreState) : List Request → List Nat
  | [] => []
  | r :: rs =>
      (match r with
       | .createReq body now1 now2 =>
           match (create_task s body now1 now2).1 with
           | .ok t => [t.id]
           | .error _ => []
       | _ => []) ++ createdIds (step s r) rs

/-! ### Dictionary lemmas -/

theorem hasKey_eq_false_iff {db : List (Nat × Task)} {k : Nat} :
    hasKey db k = false ↔ dictGet? db k = none := by
  simp [hasKey, dictGet?, List.any_eq_false, List.find?_eq_none]

theorem hasKey_eq_true_iff {db : List (Nat × Task)} {k : Nat} :
    hasKey db k = true ↔ ∃ t, dictGet? db k = some t := by
  constructor
  · intro h
    cases hg : dictGet? db k with
    | none =>
        rw [← hasKey_eq_false_iff] at hg
        rw [h] at hg
        cases hg
    | some t => exact ⟨t, rfl⟩
  · rintro ⟨t, ht⟩
    cases hk : hasKey db k with
    | false => rw [hasKey_eq_false_iff.mp hk] at ht; cases ht
    | true => rfl

theorem find?_append_fresh (db : List (Nat × Task)) (k : Nat) (v : Task)
    (h : hasKey db k = false) :
    (db ++ [(k, v)]).find? (fun p => p.1 == k) = some (k, v) := by
  induction db with
  | nil => simp
  | cons p ps ih =>
      simp only [hasKey, List.any_cons, Bool.or_eq_false_iff] at h
      simp only [List.cons_append, List.find?_cons, h.1]
      exact ih h.2

theorem find?_map_replace (db : List (Nat × Task)) (k : Nat) (v : Task) :
    (db.map (fun p => if p.1 == k then (k, v) else p)).find? (fun p => p.1 == k)
      = (db.find? (fun p => p.1 == k)).map (fun _ => (k, v)) := by
  induction db with
  | nil => rfl
  | cons p ps ih =>
      by_cases h : p.1 = k
      · simp [List.find?_cons, h]
      · have hb : (p.1 == k) = false := by simp [h]
        have hfp : (if p.1 == k then (k, v) else p) = p := by
          rw [hb]
          rfl
        rw [List.map_cons, List.find?_cons, hfp, hb, List.find?_cons, hb]
        exact ih

theorem dictGet?_replace_self {db : List (Nat × Task)} {k : Nat} {t : Task} (v : Task)
    (h : dictGet? db k = some t) :
    dictGet? (db.map (fun p => if p.1 == k then (k, v) else p)) k = some v := by
  unfold dictGet? at h ⊢
  rw [find?_map_replace]
  cases hf : db.find? (fun p => p.1 == k) with
  | none => rw [hf] at h; cases h
  | some p => simp

theorem dictGet?_dictSet_self (db : List (Nat × Task)) (k : Nat) (v : Task) :
    dictGet? (dictSet db k v) k = some v := by
  unfold dictSet
  by_cases h : hasKey db k = true
  · rw [if_pos h]
    obtain ⟨t, ht⟩ := hasKey_eq_true_iff.mp h
    exact dictGet?_replace_self v ht
  · rw [if_neg h]
    simp only [Bool.not_eq_true] at h
    unfold dictGet?
    rw [find?_append_fresh db k v h]
    rfl

theorem hasKey_dictSet_self (db : List (Nat × Task)) (k : Nat) (v : Task) :
    hasKey (dictSet db k v) k = true :=
  hasKey_eq_true_iff.mpr ⟨v, dictGet?_dictSet_self db k v⟩

theorem hasKey_eraseP_of_nodup {db : List (Nat × Task)} {k : Nat}
    (hnd : (db.map Prod.fst).Nodup) :
    hasKey (dictDel db k) k = false := by
  induction db with
  | nil => rfl
  | cons p ps ih =>
      simp only [List.map_cons, List.nodup_cons] at hnd
      by_cases h : p.1 = k
      · unfold dictDel
        rw [List.eraseP_cons_of_pos (by simp [h])]
        simp only [hasKey, List.any_eq_false, beq_iff_eq]
        intro q hq hqk
        exact hnd.1 (h ▸ hqk ▸ List.mem_map_of_mem Prod.fst hq)
      · unfold dictDel
        rw [List.eraseP_cons_of_neg (by simp [h])]
        simp only [hasKey, List.any_cons, Bool.or_eq_false_iff]
        refine ⟨by simp [h], ?_⟩
        have hih := ih hnd.2
        unfold dictDel hasKey at hih
        exact hih

/-! ### `next_id` preservation -/

theorem update_task_next_id (s : StoreState) (task_id : Nat) (body : TaskUpdate) (now : Nat) :
    (update_task s task_id body now).2.next_id = s.next_id := by
  unfold update_task
  split
  · split <;> rfl
  · rfl

theorem delete_task_next_id (s : StoreState) (task_id : Nat) :
    (delete_task s task_id).2.next_id = s.next_id := by
  unfold delete_task
  split <;> rfl

/-! ### Branch equations for the handlers -/

theorem create_task_eq_ok {body : TaskCreate} (s : StoreState) (now1 now2 : Nat)
    (h : validCreate body = true) :
    create_task s body now1 now2 =
      (.ok (new_task s body now1 now2),
       { tasks_db := dictSet s.tasks_db s.next_id (new_task s body now1 now2),
         next_id := s.next_id + 1 }) := by
  unfold create_task
  rw [if_pos h]

theorem create_task_eq_invalid {body : TaskCreate} (s : StoreState) (now1 now2 : Nat)
    (h : validCreate body = false) :
    create_task s body now1 now2 = (.error .validationError, s) := by
  unfold create_task
  rw [if_neg (by rw [h]; exact Bool.false_ne_true)]

theorem update_task_eq_ok {s : StoreState} {task_id : Nat} {body : TaskUpdate} {t : Task}
    (now : Nat) (hv : validUpdate body = true) (hg : dictGet? s.tasks_db task_id = some t) :
    update_task s task_id body now =
      (.ok (applyPatch t body now),
       { s with tasks_db :=
           s.tasks_db.map (fun p => if p.1 == task_id then (task_id, applyPatch t body now) else p) }) := by
  unfold update_task
  rw [if_pos hv, hg]

theorem update_task_eq_notFound {s : StoreState} {task_id : Nat} {body : TaskUpdate}
    (now : Nat) (hv : validUpdate body = true) (hg : dictGet? s.tasks_db task_id = none) :
    update_task s task_id body now =
      (.error (.notFound ("Task with the id " ++ toString task_id ++ " not found")), s) := by
  unfold update_task
  rw [if_pos hv, hg]

theorem update_task_eq_invalid {body : TaskUpdate} (s : StoreState) (task_id : Nat)
    (now : Nat) (hv : validUpdate body = false) :
    update_task s task_id body now = (.error .validationError, s) := by
  unfold update_task
  rw [if_neg (by rw [hv]; exact Bool.false_ne_true)]

theorem delete_task_eq_ok {s : StoreState} {task_id : Nat}
    (hk : hasKey s.tasks_db task_id = true) :
    delete_task s task_id = (.ok (), { s with tasks_db := dictDel s.tasks_db task_id }) := by
  unfold delete_task
  rw [if_pos hk]

theorem delete_task_eq_notFound {s : StoreState} {task_id : Nat}
    (hk : hasKey s.tasks_db task_id = false) :
    delete_task s task_id =
      (.error (.notFound ("Task with the id " ++ toString task_id ++ " not found")), s) := by
  unfold delete_task
  rw [if_neg (by rw [hk]; exact Bool.false_ne_true)]

/-! ### Trace lemmas -/

theorem createdIds_eq_range (reqs : List Request) :
    ∀ s : StoreState, createdIds s reqs = List.range' s.next_id (createdIds s reqs).length := by
  induction reqs with
  | nil => intro s; rfl
  | cons r rs ih =>
      intro s
      cases r with
      | listReq c =>
          simp only [createdIds, List.nil_append, step]
          exact ih s
      | getReq task_id =>
          simp only [createdIds, List.nil_append, step]
          exact ih s
      | createReq body now1 now2 =>
          cases h : validCreate body with
          | true =>
              simp only [createdIds, step, create_task_eq_ok s now1 now2 h, List.cons_append,
                List.nil_append, List.length_cons]
              rw [List.range'_succ]
              exact congrArg (List.cons s.next_id)
                (ih { tasks_db := dictSet s.tasks_db s.next_id (new_task s body now1 now2),
                      next_id := s.next_id + 1 })
          | false =>
              simp only [createdIds, step, create_task_eq_invalid s now1 now2 h, List.nil_append]
              exact ih s
      | updateReq task_id body now =>
          simp only [createdIds, List.nil_append, step]
          rw [← update_task_next_id s task_id body now]
          exact ih (update_task s task_id body now).2
      | deleteReq task_id =>
          simp only [createdIds, List.nil_append, step]
          rw [← delete_task_next_id s task_id]
          exact ih (delete_task s task_id).2

/-- The state invariant behind C10: every key of `tasks_db` is below `next_id`. -/
def keysBelow (s : StoreState) : Prop :=
  ∀ p ∈ s.tasks_db, p.1 < s.next_id

theorem hasKey_eq_false_of_keysBelow {s : StoreState} (h : keysBelow s) :
    hasKey s.tasks_db s.next_id = false := by
  simp only [hasKey, List.any_eq_false, beq_iff_eq]
  intro p hp hpk
  exact absurd (h p hp) (by rw [hpk]; exact lt_irrefl _)

theorem keysBelow_step (s : StoreState) (r : Request) (h : keysBelow s) :
    keysBelow (step s r) := by
  cases r with
  | listReq c => exact h
  | getReq task_id => exact h
  | createReq body now1 now2 =>
      cases hv : validCreate body with
      | true =>
          simp only [step, create_task_eq_ok s now1 now2 hv]
          intro p hp
          unfold dictSet at hp
          rw [hasKey_eq_false_of_keysBelow h] at hp
          rw [if_neg Bool.false_ne_true] at hp
          rcases List.mem_append.mp hp with hp | hp
          · exact Nat.lt_succ_of_lt (h p hp)
          · rw [List.mem_singleton.mp hp]
            exact Nat.lt_succ_self _
      | false =>
          simp only [step, create_task_eq_invalid s now1 now2 hv]
          exact h
  | updateReq task_id body now =>
      cases hv : validUpdate body with
      | true =>
          cases hg : dictGet? s.tasks_db task_id with
          | none => simpa only [step, update_task_eq_notFound now hv hg] using h
          | some task =>
              simp only [step, update_task_eq_ok now hv hg]
              intro p hp
              obtain ⟨q, hq, hpq⟩ := List.mem_map.mp hp
              by_cases hqk : q.1 = task_id
              · rw [← hpq]
                have hb : (q.1 == task_id) = true := by simp [hqk]
                rw [hb, if_pos rfl]
                exact hqk ▸ h q hq
              · rw [← hpq]
                have hb : (q.1 == task_id) = false := by simp [hqk]
                rw [hb, if_neg Bool.false_ne_true]
                exact h q hq
      | false =>
          simpa only [step, update_task_eq_invalid s task_id now hv] using h
  | deleteReq task_id =>
      cases hk : hasKey s.tasks_db task_id with
      | true =>
          simp only [step, delete_task_eq_ok hk]
          intro p hp
          exact h p (List.mem_of_mem_eraseP hp)
      | false =>
          simpa only [step, delete_task_eq_notFound hk] using h

theorem keysBelow_run (reqs : List Request) :
    ∀ s : StoreState, keysBelow s → keysBelow (run s reqs) := by
  induction reqs with
  | nil => intro s h; exact h
  | cons r rs ih =>
      intro s h
      exact ih (step s r) (keysBelow_step s r h)

theorem keysBelow_reachable {s : StoreState} (h : Reachable s) : keysBelow s := by
  obtain ⟨reqs, hr⟩ := h
  rw [← hr]
  exact keysBelow_run reqs initialState (by intro p hp; cases hp)

/-- Update never changes the key sequence of the dict: it either errors or
replaces a value in place. -/
theorem update_task_keys (s : StoreState) (task_id : Nat) (body : TaskUpdate) (now : Nat) :
    (update_task s task_id body now).2.tasks_db.map Prod.fst
      = s.tasks_db.map Prod.fst := by
  cases hv : validUpdate body with
  | false => rw [update_task_eq_invalid s task_id now hv]
  | true =>
      cases hg : dictGet? s.tasks_db task_id with
      | none => rw [update_task_eq_notFound now hv hg]
      | some t =>
          rw [update_task_eq_ok now hv hg]
          show (s.tasks_db.map _).map Prod.fst = _
          rw [List.map_map]
          apply List.map_congr_left
          intro p _
          by_cases hp : p.1 = task_id
          · simp [hp]
          · simp [hp]

/-- In every reachable state the keys of `tasks_db` are pairwise distinct,
as they are in a Python dict. -/
theorem keysNodup_reachable {s : StoreState} (h : Reachable s) :
    (s.tasks_db.map Prod.fst).Nodup := by
  obtain ⟨reqs, hr⟩ := h
  subst hr
  suffices hsuf : ∀ (reqs : List Request) (s : StoreState),
      keysBelow s → (s.tasks_db.map Prod.fst).Nodup →
      ((run s reqs).tasks_db.map Prod.fst).Nodup by
    exact hsuf reqs initialState (by intro p hp; cases hp) List.nodup_nil
  intro reqs
  induction reqs with
  | nil => intro s _ hnd; exact hnd
  | cons r rs ih =>
      intro s hb hnd
      refine ih (step s r) (keysBelow_step s r hb) ?_
      cases r with
      | listReq c => exact hnd
      | getReq task_id => exact hnd
      | createReq body now1 now2 =>
          cases hv : validCreate body with
          | false => simpa only [step, create_task_eq_invalid s now1 now2 hv] using hnd
          | true =>
              simp only [step, create_task_eq_ok s now1 now2 hv]
              show ((dictSet s.tasks_db s.next_id (new_task s body now1 now2)).map Prod.fst).Nodup
              unfold dictSet
              rw [hasKey_eq_false_of_keysBelow hb, if_neg Bool.false_ne_true, List.map_append]
              rw [List.nodup_append]
              refine ⟨hnd, List.nodup_singleton _, ?_⟩
              intro k hk1 hk2
              obtain ⟨p, hp, hpk⟩ := List.mem_map.mp hk1
              rw [List.map_singleton, List.mem_singleton] at hk2
              have := hb p hp
              rw [hpk, hk2] at this
              exact absurd this (lt_irrefl _)
      | updateReq task_id body now =>
          show (((update_task s task_id body now).2).tasks_db.map Prod.fst).Nodup
          rw [update_task_keys]
          exact hnd
      | deleteReq task_id =>
          cases hk : hasKey s.tasks_db task_id with
          | false => simpa only [step, delete_task_eq_notFound hk] using hnd
          | true =>
              simp only [step, delete_task_eq_ok hk]
              show ((dictDel s.tasks_db task_id).map Prod.fst).Nodup
              exact ((List.eraseP_sublist s.tasks_db).map Prod.fst).nodup hnd

/-! ### Validation characterisations -/

theorem validUpdate_eq_false_iff (u : TaskUpdate) :
    validUpdate u = false ↔
      ((∃ v, u.title = some (some v) ∧ (v.length < 1 ∨ 200 < v.length)) ∨
       (∃ d, u.description = some (some d) ∧ 1000 < d.length)) := by
  rcases u with ⟨ut, ud, uc⟩
  rcases ut with _ | (_ | v) <;> rcases ud with _ | (_ | d) <;>
    simp [validUpdate] <;> omega

/-! ### Claim theorems -/

/-- C2: along every request sequence from the initial state, the ids handed
out by the successful Create calls are pairwise strictly increasing, never
reused, and the first one assigned is 1 — regardless of the Delete (or any
other) requests interleaved in the sequence. -/
theorem createIds_strictly_increasing_from_one (reqs : List Request) :
    List.Pairwise (fun a b => a < b) (createdIds initialState reqs) ∧
    (createdIds initialState reqs).Nodup ∧
    (createdIds initialState reqs ≠ [] → (createdIds initialState reqs).head? = some 1) := by
  have h := createdIds_eq_range reqs initialState
  refine ⟨?_, ?_, ?_⟩
  · rw [h]
    exact List.pairwise_lt_range' _ _
  · rw [h]
    exact List.nodup_range' _ _
  · intro hne
    have hlen : (createdIds initialState reqs).length ≠ 0 := by
      intro h0
      exact hne (List.length_eq_zero.mp h0)
    rw [h, List.head?_range', if_neg hlen]
    rfl

theorem createIds_strictly_increasing_from_one_witness :
    (createdIds initialState
      [Request.createReq ⟨"a", none⟩ 0 0, Request.deleteReq 1,
       Request.createReq ⟨"b", none⟩ 2 2]).head? = some 1 :=
  (createIds_strictly_increasing_from_one
    [Request.createReq ⟨"a", none⟩ 0 0, Request.deleteReq 1,
     Request.createReq ⟨"b", none⟩ 2 2]).2.2 (by decide)

/-- C10: in every reachable state `next_id` is strictly above every key of
`tasks_db`, hence `next_id` is never an existing key and a valid Create
appends a fresh entry, overwriting nothing. -/
theorem next_id_above_all_keys {s : StoreState} (h : Reachable s) :
    (∀ p ∈ s.tasks_db, p.1 < s.next_id) ∧
    hasKey s.tasks_db s.next_id = false ∧
    (∀ body now1 now2, validCreate body = true →
      (create_task s body now1 now2).2.tasks_db
        = s.tasks_db ++ [(s.next_id, new_task s body now1 now2)]) := by
  have hk := keysBelow_reachable h
  refine ⟨hk, hasKey_eq_false_of_keysBelow hk, ?_⟩
  intro body now1 now2 hv
  rw [create_task_eq_ok s now1 now2 hv]
  show dictSet s.tasks_db s.next_id (new_task s body now1 now2) = _
  unfold dictSet
  rw [hasKey_eq_false_of_keysBelow hk, if_neg Bool.false_ne_true]

theorem next_id_above_all_keys_witness :
    hasKey initialState.tasks_db initialState.next_id = false :=
  (next_id_above_all_keys ⟨[], rfl⟩).2.1

/-- C1 is refuted by the code: the state reached by Create(title="a") followed
by an Update whose body is the explicit JSON null `{"title": null}` is
reachable, yet its stored task has `title = None` — not a non-empty string —
so the claimed invariant fails and the update operation does not preserve it. -/
theorem null_title_update_breaks_invariant :
    Reachable (run initialState
      [Request.createReq ⟨"a", none⟩ 0 0, Request.updateReq 1 { title := some none } 1]) ∧
    dictGet? (run initialState
      [Request.createReq ⟨"a", none⟩ 0 0, Request.updateReq 1 { title := some none } 1]).tasks_db 1
      = some { id := 1, title := none, description := none, completed := some false,
               created_at := 0, updated_at := 1 } ∧
    ¬ Task.wellFormed { id := 1, title := none, description := none,
                        completed := some false, created_at := 0, updated_at := 1 } := by
  refine ⟨⟨_, rfl⟩, rfl, ?_⟩
  rintro ⟨⟨str, hstr, -⟩, -⟩
  exact Option.noConfusion hstr

/-- C3 is refuted in its zero-skew conjunct: the source makes two separate
`datetime.now()` calls for `created_at` and `updated_at` (main.py lines 58-59),
so when the clock advances between them — here reading 0 and then 1 — the task
returned by a perfectly valid Create has `created_at ≠ updated_at`. -/
theorem create_timestamps_can_differ :
    validCreate ⟨"a", none⟩ = true ∧
    ∃ t, (create_task initialState ⟨"a", none⟩ 0 1).1 = Except.ok t ∧
      t.created_at ≠ t.updated_at := by
  refine ⟨rfl, new_task initialState ⟨"a", none⟩ 0 1, ?_, ?_⟩
  · rw [create_task_eq_ok initialState 0 1 (by decide)]
  · intro h
    exact absurd h (by decide)

/-- C3 (amended): for every state, valid Create body and pair of readings of
the two `datetime.now()` calls, Create succeeds with a task whose `created_at`
is the first reading and whose `updated_at` is the second — so the timestamps
are equal exactly when the two calls return the same instant — and a Get of
the new id performed on the post-Create state (before any further mutation)
returns that very task. -/
theorem create_then_get (s : StoreState) (body : TaskCreate) (now1 now2 : Nat)
    (h : validCreate body = true) :
    ∃ t, (create_task s body now1 now2).1 = Except.ok t ∧
      t.created_at = now1 ∧
      t.updated_at = now2 ∧
      (now1 = now2 → t.created_at = t.updated_at) ∧
      get_task (create_task s body now1 now2).2 t.id = Except.ok t := by
  refine ⟨new_task s body now1 now2, ?_, rfl, rfl, fun he => he, ?_⟩
  · rw [create_task_eq_ok s now1 now2 h]
  · rw [create_task_eq_ok s now1 now2 h]
    show get_task { tasks_db := dictSet s.tasks_db s.next_id (new_task s body now1 now2),
                    next_id := s.next_id + 1 } (new_task s body now1 now2).id = _
    unfold get_task
    have hid : (new_task s body now1 now2).id = s.next_id := rfl
    rw [hid]
    show (if hasKey (dictSet s.tasks_db s.next_id (new_task s body now1 now2)) s.next_id = true
      then _ else _) = _
    rw [hasKey_dictSet_self, if_pos rfl, dictGet?_dictSet_self]

theorem create_then_get_witness :
    ∃ t, (create_task initialState ⟨"a", none⟩ 5 5).1 = Except.ok t ∧
      t.created_at = 5 ∧
      t.updated_at = 5 ∧
      (5 = 5 → t.created_at = t.updated_at) ∧
      get_task (create_task initialState ⟨"a", none⟩ 5 5).2 t.id = Except.ok t :=
  create_then_get initialState ⟨"a", none⟩ 5 5 (by decide)

/-- C4: a successful Update returns and stores the patched task: each field
supplied in the patch is overwritten with the supplied value, each absent
field — and `id` and `created_at` — keeps its prior value, `updated_at`
becomes the request time (so an empty patch changes nothing else, and
`updated_at` strictly increases whenever the clock has advanced past the
stored `updated_at`). -/
theorem update_overwrites_exactly_patch (s : StoreState) (task_id : Nat)
    (body : TaskUpdate) (now : Nat) (t : Task)
    (hv : validUpdate body = true) (hg : dictGet? s.tasks_db task_id = some t) :
    (update_task s task_id body now).1 = Except.ok (applyPatch t body now) ∧
    dictGet? (update_task s task_id body now).2.tasks_db task_id
      = some (applyPatch t body now) ∧
    (applyPatch t body now).id = t.id ∧
    (applyPatch t body now).created_at = t.created_at ∧
    (applyPatch t body now).updated_at = now ∧
    (body.title = none → (applyPatch t body now).title = t.title) ∧
    (∀ v, body.title = some v → (applyPatch t body now).title = v) ∧
    (body.description = none → (applyPatch t body now).description = t.description) ∧
    (∀ v, body.description = some v → (applyPatch t body now).description = v) ∧
    (body.completed = none → (applyPatch t body now).completed = t.completed) ∧
    (∀ v, body.completed = some v → (applyPatch t body now).completed = v) ∧
    (body = {} → applyPatch t body now = { t with updated_at := now }) ∧
    (t.updated_at < now → t.updated_at < (applyPatch t body now).updated_at) := by
  rw [update_task_eq_ok now hv hg]
  refine ⟨rfl, dictGet?_replace_self (applyPatch t body now) hg, rfl, rfl, rfl,
    ?_, ?_, ?_, ?_, ?_, ?_, ?_, ?_⟩
  · intro hb; simp [applyPatch, hb]
  · intro v hb; simp [applyPatch, hb]
  · intro hb; simp [applyPatch, hb]
  · intro v hb; simp [applyPatch, hb]
  · intro hb; simp [applyPatch, hb]
  · intro v hb; simp [applyPatch, hb]
  · intro hb; rw [hb]; rfl
  · intro hlt; exact hlt

theorem update_overwrites_exactly_patch_witness :
    (update_task (create_task initialState ⟨"a", none⟩ 0 0).2 1
        { completed := some (some true) } 2).1
      = Except.ok (applyPatch (new_task initialState ⟨"a", none⟩ 0 0)
          { completed := some (some true) } 2) :=
  (update_overwrites_exactly_patch (create_task initialState ⟨"a", none⟩ 0 0).2 1
    { completed := some (some true) } 2 (new_task initialState ⟨"a", none⟩ 0 0)
    (by decide) rfl).1

/-- C5: List is a pure read that cannot fail: with no filter it returns all
stored tasks in insertion order, with a boolean filter it returns exactly the
stored tasks whose `completed` equals the filter (keeping insertion order),
and on any state whose stored `completed` flags are all actual booleans the
two filtered listings partition the unfiltered one. -/
theorem list_filter_partitions (s : StoreState) :
    get_tasks s none = s.tasks_db.map (fun p => p.2) ∧
    (∀ b, get_tasks s (some b)
      = (get_tasks s none).filter (fun t => t.completed == some b)) ∧
    ((∀ t ∈ get_tasks s none, (t.completed).isSome = true) →
      List.Perm (get_tasks s (some true) ++ get_tasks s (some false))
        (get_tasks s none)) := by
  refine ⟨rfl, fun b => rfl, ?_⟩
  intro hwt
  have hfc : (s.tasks_db.map (fun p => p.2)).filter (fun t => t.completed == some false)
      = (s.tasks_db.map (fun p => p.2)).filter (fun t => !(t.completed == some true)) := by
    apply List.filter_congr
    intro t ht
    obtain ⟨c, hc⟩ := Option.isSome_iff_exists.mp (hwt t ht)
    cases c <;> simp [hc]
  show List.Perm
    ((s.tasks_db.map (fun p => p.2)).filter (fun t => t.completed == some true)
      ++ (s.tasks_db.map (fun p => p.2)).filter (fun t => t.completed == some false))
    (s.tasks_db.map (fun p => p.2))
  rw [hfc]
  exact List.filter_append_perm _ _

theorem list_filter_partitions_witness :
    List.Perm
      (get_tasks ⟨[(1, ⟨1, some "a", none, some true, 0, 0⟩),
                   (2, ⟨2, some "b", none, some false, 0, 0⟩)], 3⟩ (some true)
        ++ get_tasks ⟨[(1, ⟨1, some "a", none, some true, 0, 0⟩),
                       (2, ⟨2, some "b", none, some false, 0, 0⟩)], 3⟩ (some false))
      (get_tasks ⟨[(1, ⟨1, some "a", none, some true, 0, 0⟩),
                   (2, ⟨2, some "b", none, some false, 0, 0⟩)], 3⟩ none) :=
  (list_filter_partitions
    ⟨[(1, ⟨1, some "a", none, some true, 0, 0⟩),
      (2, ⟨2, some "b", none, some false, 0, 0⟩)], 3⟩).2.2 (by decide)

/-- C6: Update fails with the validation error exactly when a supplied string
field breaks the Create length constraints (FastAPI checks the body before the
handler runs), fails with NotFound exactly when the body is valid and the id
is absent, and every failing Update leaves `tasks_db` and `next_id` unchanged. -/
theorem update_error_conditions (s : StoreState) (task_id : Nat)
    (body : TaskUpdate) (now : Nat) :
    ((update_task s task_id body now).1 = Except.error ApiError.validationError ↔
      ((∃ v, body.title = some (some v) ∧ (v.length < 1 ∨ 200 < v.length)) ∨
       (∃ d, body.description = some (some d) ∧ 1000 < d.length))) ∧
    ((∃ msg, (update_task s task_id body now).1 = Except.error (ApiError.notFound msg)) ↔
      (validUpdate body = true ∧ hasKey s.tasks_db task_id = false)) ∧
    (∀ e, (update_task s task_id body now).1 = Except.error e →
      (update_task s task_id body now).2 = s) := by
  rw [← validUpdate_eq_false_iff]
  cases hv : validUpdate body with
  | false =>
      rw [update_task_eq_invalid s task_id now hv]
      refine ⟨by simp, ?_, fun e _ => rfl⟩
      constructor
      · rintro ⟨msg, hmsg⟩
        exact absurd (Except.error.inj hmsg) (fun hh => ApiError.noConfusion hh)
      · rintro ⟨hvt, -⟩
        simp [hvt] at hv
        exact absurd hvt Bool.false_ne_true
  | true =>
      cases hg : dictGet? s.tasks_db task_id with
      | none =>
          rw [update_task_eq_notFound now hv hg]
          refine ⟨?_, ?_, fun e _ => rfl⟩
          · constructor
            · intro hh
              exact absurd (Except.error.inj hh) (fun hc => ApiError.noConfusion hc)
            · intro hh
              cases hh
          · constructor
            · intro _
              exact ⟨rfl, hasKey_eq_false_iff.mpr hg⟩
            · intro _
              exact ⟨_, rfl⟩
      | some t =>
          rw [update_task_eq_ok now hv hg]
          refine ⟨?_, ?_, ?_⟩
          · constructor
            · intro hh
              cases hh
            · intro hh
              simp [hh] at hv
              exact absurd hh.symm Bool.false_ne_true
          · constructor
            · rintro ⟨msg, hmsg⟩
              cases hmsg
            · rintro ⟨-, hk⟩
              rw [hasKey_eq_false_iff.mp hk] at hg
              cases hg
          · intro e he
            cases he

theorem update_error_conditions_witness :
    ∃ msg, (update_task initialState 1 {} 0).1 = Except.error (ApiError.notFound msg) :=
  (update_error_conditions initialState 1 {} 0).2.1.mpr ⟨rfl, rfl⟩

/-- C7: Create rejects an empty title, any title of 201 or more characters,
and any supplied description of 1001 or more characters, and accepts a title
of exactly 200 characters together with a description of exactly 1000. -/
theorem create_validation_boundaries :
    (∀ (s : StoreState) (d : Option String) (now1 now2 : Nat),
      (create_task s ⟨"", d⟩ now1 now2).1 = Except.error ApiError.validationError) ∧
    (∀ (s : StoreState) (body : TaskCreate) (now1 now2 : Nat),
      201 ≤ body.title.length →
      (create_task s body now1 now2).1 = Except.error ApiError.validationError) ∧
    (∀ (s : StoreState) (body : TaskCreate) (now1 now2 : Nat) (d : String),
      body.description = some d → 1001 ≤ d.length →
      (create_task s body now1 now2).1 = Except.error ApiError.validationError) ∧
    (∀ (s : StoreState) (title d : String) (now1 now2 : Nat),
      title.length = 200 → d.length = 1000 →
      (create_task s ⟨title, some d⟩ now1 now2).1
        = Except.ok (new_task s ⟨title, some d⟩ now1 now2)) := by
  refine ⟨?_, ?_, ?_, ?_⟩
  · intro s d now1 now2
    rw [create_task_eq_invalid s now1 now2 (by cases d <;> simp [validCreate])]
  · intro s body now1 now2 hlen
    rcases body with ⟨bt, bd⟩
    rw [create_task_eq_invalid s now1 now2 ?_]
    simp only at hlen
    cases bd <;> simp [validCreate] <;> omega
  · intro s body now1 now2 d hd hlen
    rcases body with ⟨bt, bd⟩
    simp only at hd
    rw [create_task_eq_invalid s now1 now2 ?_]
    rw [hd]
    simp [validCreate]
    omega
  · intro s title d now1 now2 ht hd
    rw [create_task_eq_ok s now1 now2 (by simp [validCreate, ht, hd])]

set_option maxRecDepth 40000 in
theorem create_validation_boundaries_witness :
    (create_task initialState ⟨"", none⟩ 0 0).1 = Except.error ApiError.validationError ∧
    (create_task initialState ⟨String.mk (List.replicate 201 'a'), none⟩ 0 0).1
      = Except.error ApiError.validationError ∧
    (create_task initialState ⟨"a", some (String.mk (List.replicate 1001 'b'))⟩ 0 0).1
      = Except.error ApiError.validationError ∧
    (create_task initialState
        ⟨String.mk (List.replicate 200 'a'), some (String.mk (List.replicate 1000 'b'))⟩ 0 0).1
      = Except.ok (new_task initialState
          ⟨String.mk (List.replicate 200 'a'), some (String.mk (List.replicate 1000 'b'))⟩ 0 0) :=
  ⟨create_validation_boundaries.1 initialState none 0 0,
   create_validation_boundaries.2.1 initialState
     ⟨String.mk (List.replicate 201 'a'), none⟩ 0 0 (by decide),
   create_validation_boundaries.2.2.1 initialState
     ⟨"a", some (String.mk (List.replicate 1001 'b'))⟩ 0 0
     (String.mk (List.replicate 1001 'b')) rfl (by decide),
   create_validation_boundaries.2.2.2 initialState
     (String.mk (List.replicate 200 'a')) (String.mk (List.replicate 1000 'b')) 0 0
     (by decide) (by decide)⟩

/-- C8: Delete fails with NotFound exactly when the id is absent, leaving the
state unchanged; on success the response is empty, `next_id` is untouched, the
mapping loses exactly one entry, and — the keys being duplicate-free, as in a
Python dict — the id is no longer present, so a subsequent Get of it fails
with NotFound and a subsequent List cannot contain a task stored under it. -/
theorem delete_error_and_removal (s : StoreState) (task_id : Nat) :
    ((∃ msg, (delete_task s task_id).1 = Except.error (ApiError.notFound msg)) ↔
      hasKey s.tasks_db task_id = false) ∧
    (hasKey s.tasks_db task_id = false → (delete_task s task_id).2 = s) ∧
    (hasKey s.tasks_db task_id = true →
      (delete_task s task_id).1 = Except.ok () ∧
      (delete_task s task_id).2.next_id = s.next_id ∧
      (delete_task s task_id).2.tasks_db.length + 1 = s.tasks_db.length ∧
      ((s.tasks_db.map Prod.fst).Nodup →
        hasKey (delete_task s task_id).2.tasks_db task_id = false ∧
        (∃ msg, get_task (delete_task s task_id).2 task_id
          = Except.error (ApiError.notFound msg)))) := by
  cases hk : hasKey s.tasks_db task_id with
  | false =>
      rw [delete_task_eq_notFound hk]
      exact ⟨⟨fun _ => rfl, fun _ => ⟨_, rfl⟩⟩, fun _ => rfl, fun hc => Bool.noConfusion hc⟩
  | true =>
      rw [delete_task_eq_ok hk]
      refine ⟨⟨?_, fun hc => Bool.noConfusion hc⟩, fun hc => Bool.noConfusion hc, ?_⟩
      · rintro ⟨msg, hmsg⟩
        cases hmsg
      · intro _
        refine ⟨rfl, rfl, ?_, ?_⟩
        · obtain ⟨q, hq, hpq⟩ := List.any_eq_true.mp hk
          have hlen : (s.tasks_db.eraseP (fun p => p.1 == task_id)).length
              = s.tasks_db.length - 1 := List.length_eraseP_of_mem hq hpq
          have hpos : 0 < s.tasks_db.length := List.length_pos_of_mem hq
          show (dictDel s.tasks_db task_id).length + 1 = s.tasks_db.length
          unfold dictDel
          omega
        · intro hnd
          have hgone : hasKey (dictDel s.tasks_db task_id) task_id = false :=
            hasKey_eraseP_of_nodup hnd
          refine ⟨hgone,
            ⟨"Error: Task with the id " ++ toString task_id ++ " not found", ?_⟩⟩
          unfold get_task
          rw [show hasKey ({ s with tasks_db := dictDel s.tasks_db task_id } :
              StoreState).tasks_db task_id = false from hgone, if_neg Bool.false_ne_true]

theorem delete_error_and_removal_witness :
    hasKey (delete_task (create_task initialState ⟨"a", none⟩ 0 0).2 1).2.tasks_db 1 = false ∧
    (delete_task (create_task initialState ⟨"a", none⟩ 0 0).2 1).2.tasks_db.length + 1
      = (create_task initialState ⟨"a", none⟩ 0 0).2.tasks_db.length :=
  ⟨(((delete_error_and_removal (create_task initialState ⟨"a", none⟩ 0 0).2 1).2.2
      rfl).2.2.2 (by decide)).1,
   ((delete_error_and_removal (create_task initialState ⟨"a", none⟩ 0 0).2 1).2.2
      rfl).2.2.1⟩

/-- C9: Get returns exactly the task stored under the requested id when the id
is a key of the mapping, and otherwise fails with a NotFound whose detail
message contains the requested id. -/
theorem get_found_or_not_found (s : StoreState) (task_id : Nat) :
    (∀ t, dictGet? s.tasks_db task_id = some t → get_task s task_id = Except.ok t) ∧
    (dictGet? s.tasks_db task_id = none →
      ∃ pre post, get_task s task_id
        = Except.error (ApiError.notFound (pre ++ toString task_id ++ post))) := by
  constructor
  · intro t ht
    unfold get_task
    rw [hasKey_eq_true_iff.mpr ⟨t, ht⟩, if_pos rfl, ht]
  · intro hn
    refine ⟨"Error: Task with the id ", " not found", ?_⟩
    unfold get_task
    rw [hasKey_eq_false_iff.mpr hn, if_neg Bool.false_ne_true]

theorem get_found_or_not_found_witness :
    ∃ pre post, get_task initialState 7
      = Except.error (ApiError.notFound (pre ++ toString 7 ++ post)) :=
  (get_found_or_not_found initialState 7).2 rfl

end TodoApi
